import Mathlib

/-!
Verification of the S3-WebUI backend (src/backend/app.py), a thin
HTTP-to-object-storage gateway with five handlers: generate_presigned_url,
list_files, download_file, delete_file and create_folder.

Object keys are modelled as lists of characters, a bucket as a list of
stored objects, and the boto3 S3 client as pure functions on that state.
The five handlers are translated line by line from the Python source.
-/

namespace S3WebUI

/-- An S3 object key, modelled as a list of characters. -/
abbrev Key := List Char

/-- A stored S3 object: its key, size in bytes and last-modified timestamp
(kept abstract as a character string, rendered by isoformat in the source). -/
structure S3Object where
  key : Key
  size : Nat
  lastModified : Key
deriving DecidableEq, Repr

/-- The durable state: the contents of the external S3 bucket. -/
abbrev Bucket := List S3Object

/-- The keys currently present in the bucket. -/
def bucketKeys (b : Bucket) : List Key := b.map S3Object.key

/-- Modelled from the spec (glossary, "Common prefix"): the shortest
non-empty segment of a character list up to and including the first
occurrence of the delimiter, or none if the delimiter does not occur. -/
def upToDelim (delim : Char) : List Char → Option (List Char)
  | [] => none
  | x :: xs =>
      if x = delim then some [x]
      else (upToDelim delim xs).map (fun l => x :: l)

/-- Modelled from the spec (glossary, "Common prefix"): given a listing
request prefix `pre` and a key that starts with `pre`, the common prefix
the key rolls up into under the delimiter, if the remainder of the key
after `pre` contains the delimiter. -/
def commonPrefixFor (delim : Char) (pre k : Key) : Option Key :=
  (upToDelim delim (k.drop pre.length)).map (fun l => pre ++ l)

/-- The shape of an S3 ListObjectsV2 response: CommonPrefixes and Contents. -/
structure ListObjectsResponse where
  commonPrefixes : List Key
  contents : List S3Object
deriving DecidableEq, Repr

namespace s3_client

/-- Modelled from the spec (4.2 and glossary): S3 ListObjectsV2 with a
delimiter. Keys starting with the request prefix whose remainder contains
the delimiter are rolled up into CommonPrefixes (deduplicated); the other
matching keys are returned in Contents. A single page is modelled, as the
source never follows continuation tokens. -/
def list_objects_v2 (b : Bucket) (pre : Key) (delim : Char) : ListObjectsResponse :=
  let matching := b.filter (fun o => List.isPrefixOf pre o.key)
  { commonPrefixes := (matching.filterMap (fun o => commonPrefixFor delim pre o.key)).dedup
    contents := matching.filter (fun o => (commonPrefixFor delim pre o.key).isNone) }

/-- Modelled from the spec: S3 PutObject stores an object at the key,
overwriting any existing object at that key. -/
def put_object (b : Bucket) (k : Key) (size : Nat) (lm : Key) : Bucket :=
  b.filter (fun o => o.key ≠ k) ++ [⟨k, size, lm⟩]

/-- Modelled from the spec (4.4): S3 DeleteObject removes the object at the
key and does not error on a missing key. -/
def delete_object (b : Bucket) (k : Key) : Bucket :=
  b.filter (fun o => o.key ≠ k)

/-- The storage operation a presigned URL grants. -/
inductive S3Op
  | put_object
  | get_object
deriving DecidableEq, Repr

/-- Modelled from the spec (4.1, 4.3, glossary): a presigned URL, kept
structured — the operation it grants, the bucket, the object key, and the
embedded expiry in seconds from issuance. -/
structure PresignedUrl where
  op : S3Op
  bucket : Key
  key : Key
  expiresIn : Nat
deriving DecidableEq, Repr

/-- Modelled from the spec: boto3 generate_presigned_url is a pure signing
operation; it never contacts storage and does not depend on bucket state. -/
def generate_presigned_url (op : S3Op) (bucket k : Key) (expiresIn : Nat) : PresignedUrl :=
  ⟨op, bucket, k, expiresIn⟩

end s3_client

/-- Modelled from the spec (8, first property): the path component of the
rendered presigned URL, containing the bucket and the object key. -/
def urlPath (u : s3_client.PresignedUrl) : Key :=
  ('/' :: u.bucket) ++ ('/' :: u.key)

/-- Python negative indexing `l[-i]`, as a partial lookup. -/
def pyGetNeg (l : List α) (i : Nat) : Option α :=
  if 0 < i ∧ i ≤ l.length then l.get? (l.length - i) else none

/-- Python `s.split(c)` for a one-character separator: split at every
occurrence of the separator, keeping empty pieces. -/
def splitOnChar (c : Char) : List Char → List (List Char)
  | [] => [[]]
  | x :: xs =>
      let r := splitOnChar c xs
      if x = c then [] :: r
      else
        match r with
        | [] => [[x]]
        | y :: ys => (x :: y) :: ys

/-- The request body of POST /api/generate_presigned_url (class FileRequest). -/
structure FileRequest where
  filename : Key
  filetype : Key
deriving DecidableEq, Repr

/-- One entry of the list_files response. Folders carry no size or
last_modified field; plain objects carry both. -/
structure FileEntry where
  key : Key
  name : Key
  isFolder : Bool
  size : Option Nat
  last_modified : Option Key
deriving DecidableEq, Repr

/-- Handler for POST /api/generate_presigned_url: asks the client for a
put_object URL for the request filename with ExpiresIn 3600 and returns it.
The bucket state is threaded to make the absence of side effects explicit. -/
def generate_presigned_url (S3_BUCKET : Key) (b : Bucket) (request : FileRequest) :
    Bucket × s3_client.PresignedUrl :=
  (b, s3_client.generate_presigned_url .put_object S3_BUCKET request.filename 3600)

/-- Handler for GET /api/list_files: one list_objects_v2 call with
Delimiter "/", CommonPrefixes mapped to folder entries (name is
split("/")[-2] of the common prefix), Contents filtered to drop the key
equal to the request prefix and mapped to object entries (name is
split("/")[-1] of the key). Folder entries are appended first. -/
def list_files (b : Bucket) (pre : Key) : List FileEntry :=
  let response := s3_client.list_objects_v2 b pre '/'
  let folders := response.commonPrefixes.map (fun p =>
    ⟨p, (pyGetNeg (splitOnChar '/' p) 2).getD [], true, none, none⟩)
  let objs := (response.contents.filter (fun o => o.key ≠ pre)).map (fun o =>
    ⟨o.key, (pyGetNeg (splitOnChar '/' o.key) 1).getD [], false, some o.size,
      some o.lastModified⟩)
  folders ++ objs

/-- Handler for GET /api/download_file: asks the client for a get_object
URL for the given key with ExpiresIn 3600 and returns it. -/
def download_file (S3_BUCKET : Key) (b : Bucket) (k : Key) :
    Bucket × s3_client.PresignedUrl :=
  (b, s3_client.generate_presigned_url .get_object S3_BUCKET k 3600)

/-- Handler for DELETE /api/delete_file: one delete_object call, then the
message f-string `{key} deleted successfully`. -/
def delete_file (b : Bucket) (k : Key) : Bucket × Key :=
  (s3_client.delete_object b k, k ++ " deleted successfully".toList)

/-- The single quote character, used in the create_folder message. -/
def squote : Char := Char.ofNat 39

/-- Handler for POST /api/create_folder: if the prefix does not end with
"/" append "/", then one put_object call with an empty body (size 0), and
the message f-string `Folder {p} created successfully` with the normalized
prefix in single quotes. `now` stands for the server-side timestamp the
storage service records for the marker object. -/
def create_folder (b : Bucket) (pre : Key) (now : Key) : Bucket × Key :=
  let p := if pre.getLast? = some '/' then pre else pre ++ ['/']
  (s3_client.put_object b p 0 now,
    "Folder ".toList ++ (squote :: p) ++ (squote :: " created successfully".toList))

/-- Spec-side normalization of 4.5: the prefix with a trailing delimiter
ensured. -/
def normFolder (pre : Key) : Key :=
  if pre.getLast? = some '/' then pre else pre ++ ['/']

/-- Spec-side derivation of 4.2: strip a trailing delimiter if present. -/
def stripTrailingDelim (p : Key) : Key :=
  if p.getLast? = some '/' then p.dropLast else p

/-- Spec-side derivation of 4.2: the last path segment of a key. -/
def lastSegment (p : Key) : Key :=
  ((splitOnChar '/' p).getLast?).getD []

/-! ## Supporting lemmas -/

theorem upToDelim_spec (c : Char) :
    ∀ xs l, upToDelim c xs = some l → l ≠ [] ∧ l.getLast? = some c := by
  intro xs
  induction xs with
  | nil => intro l h; simp [upToDelim] at h
  | cons x t ih =>
      intro l h
      simp only [upToDelim] at h
      split at h
      · rename_i hx
        cases h
        subst hx
        exact ⟨by simp, rfl⟩
      · rw [Option.map_eq_some'] at h
        obtain ⟨l2, hl2, rfl⟩ := h
        obtain ⟨hne, hlast⟩ := ih l2 hl2
        refine ⟨by simp, ?_⟩
        cases l2 with
        | nil => exact absurd rfl hne
        | cons y t2 => rw [List.getLast?_cons_cons]; exact hlast

/-- Every common prefix returned by the listing is the request prefix
extended by a non-empty segment ending in the delimiter. -/
theorem commonPrefix_shape {b : Bucket} {pre : Key} {d : Char} {p : Key}
    (hp : p ∈ (s3_client.list_objects_v2 b pre d).commonPrefixes) :
    ∃ l, l ≠ [] ∧ l.getLast? = some d ∧ p = pre ++ l := by
  simp only [s3_client.list_objects_v2, List.mem_dedup, List.mem_filterMap,
    commonPrefixFor, Option.map_eq_some'] at hp
  obtain ⟨o, _, l, hl, rfl⟩ := hp
  exact ⟨l, (upToDelim_spec d _ l hl).1, (upToDelim_spec d _ l hl).2, rfl⟩

theorem splitOnChar_ne_nil (c : Char) (l : List Char) : splitOnChar c l ≠ [] := by
  cases l with
  | nil => simp [splitOnChar]
  | cons x xs =>
      simp only [splitOnChar]
      split
      · simp
      · split <;> simp

theorem splitOnChar_append_delim (c : Char) (q : List Char) :
    splitOnChar c (q ++ [c]) = splitOnChar c q ++ [[]] := by
  induction q with
  | nil => simp [splitOnChar]
  | cons x t ih =>
      by_cases hx : x = c
      · simp [splitOnChar, hx, ih]
      · cases hsplit : splitOnChar c t with
        | nil => exact absurd hsplit (splitOnChar_ne_nil c t)
        | cons y ys =>
            simp only [List.cons_append, splitOnChar, hx, if_false, ih, hsplit]
            have ih2 : splitOnChar c (t.append [c]) = y :: (ys ++ [[]]) := by
              have h2 : splitOnChar c (t ++ [c]) = y :: (ys ++ [[]]) := by
                rw [ih, hsplit]
                rfl
              exact h2
            rw [ih2]

theorem pyGetNeg_two {α : Type} (s : List α) (x : α) (hs : s ≠ []) :
    pyGetNeg (s ++ [x]) 2 = s.getLast? := by
  have hlen : 0 < s.length := List.length_pos.mpr hs
  have hcond : 0 < 2 ∧ 2 ≤ (s ++ [x]).length := by
    simp only [List.length_append, List.length_singleton]
    omega
  rw [pyGetNeg, if_pos hcond]
  have hidx : (s ++ [x]).length - 2 = s.length - 1 := by
    simp only [List.length_append, List.length_singleton]
    omega
  rw [hidx, List.get?_append (by omega), List.getLast?_eq_get?]

/-- The code-side folder name (split("/")[-2]) equals the spec-side one
(strip the trailing delimiter, take the last path segment) for every key
ending in the delimiter. -/
theorem folderName_code_eq_spec {p : Key} (h : p.getLast? = some '/') :
    (pyGetNeg (splitOnChar '/' p) 2).getD [] = lastSegment (stripTrailingDelim p) := by
  obtain ⟨q, rfl⟩ : ∃ q, p = q ++ ['/'] := by
    induction p using List.reverseRecOn with
    | nil => simp at h
    | append_singleton xs y _ =>
        rw [List.getLast?_concat] at h
        cases h
        exact ⟨xs, rfl⟩
  rw [splitOnChar_append_delim, pyGetNeg_two _ _ (splitOnChar_ne_nil '/' q)]
  simp [stripTrailingDelim, lastSegment, List.getLast?_concat]

/-! ## Theorems -/

/-- The handler computes exactly the spec-side normalized key. -/
theorem create_folder_eq_put_norm (b : Bucket) (pre now : Key) :
    (create_folder b pre now).1 = s3_client.put_object b (normFolder pre) 0 now :=
  rfl

/-- The spec-side normalized prefix always ends with the delimiter. -/
theorem normFolder_getLast (pre : Key) : (normFolder pre).getLast? = some '/' := by
  unfold normFolder
  split
  · assumption
  · simp

/-- No surviving key of a put equals the written key except the new object. -/
theorem count_key_put_object (b : Bucket) (k : Key) (s : Nat) (lm : Key) :
    List.count k (bucketKeys (s3_client.put_object b k s lm)) = 1 := by
  have h0 : List.count k (List.map S3Object.key
      (b.filter fun o => o.key ≠ k)) = 0 := by
    rw [List.count_eq_zero]
    intro hk
    simp only [List.mem_map, List.mem_filter, decide_eq_true_eq] at hk
    obtain ⟨o, ⟨_, hne⟩, rfl⟩ := hk
    exact hne rfl
  simp only [bucketKeys, s3_client.put_object, List.map_append, List.count_append, h0]
  simp

/-- C1: for every filename, generate_presigned_url returns a URL whose path
contains the configured bucket and the exact object key given as filename,
and which embeds an expiry of exactly 3600 seconds from issuance. -/
theorem generate_presigned_url_bucket_key_expiry
    (S3_BUCKET : Key) (b : Bucket) (request : FileRequest) :
    ((generate_presigned_url S3_BUCKET b request).2).bucket = S3_BUCKET ∧
    ((generate_presigned_url S3_BUCKET b request).2).key = request.filename ∧
    ((generate_presigned_url S3_BUCKET b request).2).expiresIn = 3600 ∧
    S3_BUCKET <:+: urlPath ((generate_presigned_url S3_BUCKET b request).2) ∧
    request.filename <:+: urlPath ((generate_presigned_url S3_BUCKET b request).2) := by
  refine ⟨rfl, rfl, rfl, ⟨['/'], '/' :: request.filename, ?_⟩,
    ⟨('/' :: S3_BUCKET) ++ ['/'], [], ?_⟩⟩
  · simp [generate_presigned_url, s3_client.generate_presigned_url, urlPath]
  · simp [generate_presigned_url, s3_client.generate_presigned_url, urlPath]

/-- C7: neither generate_presigned_url nor download_file changes the bucket
state, and download_file issues its URL without regard to the bucket state
(in particular, without regard to whether an object exists at the key). -/
theorem presign_and_download_frame
    (S3_BUCKET : Key) (b b2 : Bucket) (request : FileRequest) (k : Key) :
    (generate_presigned_url S3_BUCKET b request).1 = b ∧
    (download_file S3_BUCKET b k).1 = b ∧
    (download_file S3_BUCKET b k).2 = (download_file S3_BUCKET b2 k).2 ∧
    (generate_presigned_url S3_BUCKET b request).2 =
      (generate_presigned_url S3_BUCKET b2 request).2 :=
  ⟨rfl, rfl, rfl, rfl⟩

/-- C8: the filetype field of the upload request does not influence the
response: for every filename and every pair of filetype values,
generate_presigned_url returns the same response for both requests. -/
theorem generate_presigned_url_ignores_filetype
    (S3_BUCKET : Key) (b : Bucket) (fn ft ft2 : Key) :
    generate_presigned_url S3_BUCKET b ⟨fn, ft⟩ =
      generate_presigned_url S3_BUCKET b ⟨fn, ft2⟩ :=
  rfl

/-- C3: create_folder normalizes its prefix to end with the delimiter
before writing; "foo" and "foo/" both create the zero-byte marker at the
single key "foo/", and a repeated call with either argument leaves the
bucket exactly as a single call would (idempotence). -/
theorem create_folder_normalizes_idempotent (b : Bucket) (pre now now2 : Key) :
    (create_folder b pre now).1 = s3_client.put_object b (normFolder pre) 0 now ∧
    (normFolder pre).getLast? = some '/' ∧
    (create_folder b "foo".toList now).1 = (create_folder b "foo/".toList now).1 ∧
    "foo/".toList ∈ bucketKeys (create_folder b "foo".toList now).1 ∧
    List.count "foo/".toList (bucketKeys (create_folder b "foo".toList now).1) = 1 ∧
    (create_folder (create_folder b pre now).1 pre now2).1 =
      (create_folder b pre now2).1 := by
  have hfoo : normFolder ("foo".toList) = "foo/".toList := by decide
  have hfoo2 : normFolder ("foo/".toList) = "foo/".toList := by decide
  refine ⟨rfl, normFolder_getLast pre, ?_, ?_, ?_, ?_⟩
  · rw [create_folder_eq_put_norm, create_folder_eq_put_norm, hfoo, hfoo2]
  · rw [create_folder_eq_put_norm, hfoo]
    simp [bucketKeys, s3_client.put_object]
  · rw [create_folder_eq_put_norm, hfoo]
    exact count_key_put_object b ("foo/".toList) 0 now
  · rw [create_folder_eq_put_norm, create_folder_eq_put_norm, create_folder_eq_put_norm]
    simp [s3_client.put_object, List.filter_append, List.filter_filter]

/-- C10: create_folder with the empty-string prefix appends the delimiter
and creates the marker at the bare-delimiter key "/", reporting success. -/
theorem create_folder_empty_prefix (b : Bucket) (now : Key) :
    (create_folder b [] now).1 = s3_client.put_object b ['/'] 0 now ∧
    ['/'] ∈ bucketKeys (create_folder b [] now).1 ∧
    (create_folder b [] now).2 =
      "Folder ".toList ++ (squote :: ['/']) ++
        (squote :: " created successfully".toList) := by
  refine ⟨rfl, ?_, rfl⟩
  simp [create_folder, bucketKeys, s3_client.put_object]

/-- C5: delete_file removes the object at the key (all other keys are kept)
and returns the same response whether or not an object existed at the key. -/
theorem delete_file_removes_uniform_response (b b2 : Bucket) (k : Key) :
    bucketKeys (delete_file b k).1 = (bucketKeys b).filter (fun x => x ≠ k) ∧
    k ∉ bucketKeys (delete_file b k).1 ∧
    (delete_file b k).2 = (delete_file b2 k).2 := by
  refine ⟨?_, ?_, rfl⟩
  · induction b with
    | nil => rfl
    | cons o t ih =>
        by_cases h : o.key = k <;>
          simp [delete_file, s3_client.delete_object, bucketKeys, h] at ih ⊢ <;>
          exact ih
  · intro hk
    simp only [delete_file, s3_client.delete_object, bucketKeys, List.mem_map,
      List.mem_filter, decide_eq_true_eq] at hk
    obtain ⟨o, ⟨_, hne⟩, rfl⟩ := hk
    exact hne rfl

/-- C2: for every prefix and every bucket state, list_files returns no
entry — folder or object — whose key equals the requested prefix itself. -/
theorem list_files_no_entry_eq_pre (b : Bucket) (pre : Key) :
    ∀ e ∈ list_files b pre, e.key ≠ pre := by
  intro e he
  simp only [list_files, List.mem_append, List.mem_map, List.mem_filter,
    decide_eq_true_eq] at he
  rcases he with ⟨p, hp, rfl⟩ | ⟨o, ⟨_, hne⟩, rfl⟩
  · obtain ⟨l, hlne, _, rfl⟩ := commonPrefix_shape hp
    show pre ++ l ≠ pre
    intro hcontra
    apply hlne
    have hlen := congrArg List.length hcontra
    simp only [List.length_append] at hlen
    exact List.length_eq_zero.mp (by omega)
  · exact hne

/-- C2 witness at a concrete bucket and prefix. -/
theorem list_files_no_entry_eq_pre_witness :
    (⟨"a/b/".toList, "b".toList, true, none, none⟩ : FileEntry) ∈
        list_files ([⟨"a/b/c".toList, 1, "t".toList⟩] : Bucket) ("a/".toList) ∧
    (⟨"a/b/".toList, "b".toList, true, none, none⟩ : FileEntry).key ≠ "a/".toList :=
  ⟨by decide,
    list_files_no_entry_eq_pre ([⟨"a/b/c".toList, 1, "t".toList⟩] : Bucket)
      ("a/".toList) _ (by decide)⟩

/-- C4: list_files places all folder entries (isFolder true, one per common
prefix) before all plain-object entries (isFolder false), each group in the
order the storage listing returned it. -/
theorem list_files_folders_first (b : Bucket) (pre : Key) :
    ∃ fs os, list_files b pre = fs ++ os ∧
      (∀ e ∈ fs, e.isFolder = true) ∧
      (∀ e ∈ os, e.isFolder = false) ∧
      fs.map FileEntry.key = (s3_client.list_objects_v2 b pre '/').commonPrefixes ∧
      os.map FileEntry.key =
        ((s3_client.list_objects_v2 b pre '/').contents.filter
          (fun o => o.key ≠ pre)).map S3Object.key := by
  refine ⟨_, _, rfl, ?_, ?_, ?_, ?_⟩
  · intro e he
    simp only [List.mem_map] at he
    obtain ⟨p, _, rfl⟩ := he
    rfl
  · intro e he
    simp only [List.mem_map] at he
    obtain ⟨o, _, rfl⟩ := he
    rfl
  · rw [List.map_map]
    exact List.map_id _
  · rw [List.map_map]
    rfl

/-- C6: every folder entry produced by list_files has as its name the last
path segment of its common-prefix key after stripping the trailing
delimiter. -/
theorem list_files_folder_name (b : Bucket) (pre : Key) :
    ∀ e ∈ list_files b pre, e.isFolder = true →
      e.name = lastSegment (stripTrailingDelim e.key) := by
  intro e he hf
  simp only [list_files, List.mem_append, List.mem_map, List.mem_filter,
    decide_eq_true_eq] at he
  rcases he with ⟨p, hp, rfl⟩ | ⟨o, _, rfl⟩
  · obtain ⟨l, hlne, hlast, rfl⟩ := commonPrefix_shape hp
    have hp2 : (pre ++ l).getLast? = some '/' := by
      rw [List.getLast?_append_of_ne_nil pre hlne]
      exact hlast
    exact folderName_code_eq_spec hp2
  · exact absurd hf (by simp)

/-- C6 witness at a concrete bucket and prefix. -/
theorem list_files_folder_name_witness :
    ((⟨"d/e/".toList, "e".toList, true, none, none⟩ : FileEntry) ∈
        list_files ([⟨"d/e/f".toList, 2, "u".toList⟩] : Bucket) ("d/".toList) ∧
      (⟨"d/e/".toList, "e".toList, true, none, none⟩ : FileEntry).isFolder = true) ∧
    (⟨"d/e/".toList, "e".toList, true, none, none⟩ : FileEntry).name =
      lastSegment (stripTrailingDelim
        (⟨"d/e/".toList, "e".toList, true, none, none⟩ : FileEntry).key) :=
  ⟨⟨by decide, by decide⟩,
    list_files_folder_name ([⟨"d/e/f".toList, 2, "u".toList⟩] : Bucket)
      ("d/".toList) _ (by decide) (by decide)⟩

/-- C9: a prefix matching no stored object yields an empty files list, not
an error. -/
theorem list_files_empty_on_no_match (b : Bucket) (pre : Key)
    (h : ∀ o ∈ b, List.isPrefixOf pre o.key = false) :
    list_files b pre = [] := by
  have hm : b.filter (fun o => List.isPrefixOf pre o.key) = [] := by
    rw [List.filter_eq_nil]
    intro o ho
    simp [h o ho]
  simp [list_files, s3_client.list_objects_v2, hm]

/-- C9 witness at a concrete bucket and prefix. -/
theorem list_files_empty_on_no_match_witness :
    (∀ o ∈ ([⟨"x".toList, 1, "t".toList⟩] : Bucket),
        List.isPrefixOf ("z".toList) o.key = false) ∧
    list_files [⟨"x".toList, 1, "t".toList⟩] ("z".toList) = [] :=
  ⟨by decide, list_files_empty_on_no_match _ _ (by decide)⟩

end S3WebUI
